import Mathlib

/-!
Verification of the clips tunnel (src/tools/server.py and src/tools/proxy.py).

Strings of the Python sources are modelled as `List Char`; binary socket
payloads as `List Nat` (byte values, each below 256; the sources run under
Python 2, where `str` is a byte string).  Side effects (socket writes, SOCKS
replies, queue puts, log lines) are reified as an `Effect` trace.
-/

namespace Clips

/-! ## Base64 codec (`base64.b64encode` / `base64.b64decode`) -/

/-- The standard base64 alphabet, in encoding order. -/
def b64Alphabet : List Char :=
  "ABCDEFGHIJKLMNOPQRSTUVWXYZabcdefghijklmnopqrstuvwxyz0123456789+/".toList

/-- Character of a six-bit group. -/
def encodeSextet (n : Nat) : Char := b64Alphabet.getD n 'A'

/-- Index of a character in the base64 alphabet, scanning from position `i`. -/
def findIdx (c : Char) : List Char → Nat → Option Nat
  | [], _ => none
  | x :: xs, i => if x = c then some i else findIdx c xs (i + 1)

/-- Six-bit value of a base64 alphabet character. -/
def decodeSextet (c : Char) : Option Nat := findIdx c b64Alphabet 0

/-- `base64.b64encode`: bytes to base64 text, with `=` padding. -/
def b64encode : List Nat → List Char
  | [] => []
  | [a] => [encodeSextet (a / 4), encodeSextet (a % 4 * 16), '=', '=']
  | [a, b] =>
    [encodeSextet (a / 4), encodeSextet (a % 4 * 16 + b / 16),
     encodeSextet (b % 16 * 4), '=']
  | a :: b :: c :: rest =>
    encodeSextet (a / 4) :: encodeSextet (a % 4 * 16 + b / 16) ::
    encodeSextet (b % 16 * 4 + c / 64) :: encodeSextet (c % 64) :: b64encode rest

/-- Characters `base64.b64decode` keeps (alphabet members and padding);
all others are discarded before the length check. -/
def keepB64Char (c : Char) : Bool := (decodeSextet c).isSome || c = '='

/-- Decode a filtered base64 text, four characters at a time; padding is
accepted only in a final quad; `none` models `binascii.Error` (bad length,
bad padding). -/
def b64decodeQuads : List Char → Option (List Nat)
  | [] => some []
  | [_] => none
  | [_, _] => none
  | [_, _, _] => none
  | c1 :: c2 :: c3 :: c4 :: rest =>
    if c3 = '=' ∧ c4 = '=' ∧ rest = [] then
      match decodeSextet c1, decodeSextet c2 with
      | some s1, some s2 => some [s1 * 4 + s2 / 16]
      | _, _ => none
    else if c4 = '=' ∧ rest = [] then
      match decodeSextet c1, decodeSextet c2, decodeSextet c3 with
      | some s1, some s2, some s3 =>
        some [s1 * 4 + s2 / 16, s2 % 16 * 16 + s3 / 4]
      | _, _, _ => none
    else
      match decodeSextet c1, decodeSextet c2, decodeSextet c3, decodeSextet c4 with
      | some s1, some s2, some s3, some s4 =>
        match b64decodeQuads rest with
        | some bs =>
          some ((s1 * 4 + s2 / 16) :: (s2 % 16 * 16 + s3 / 4) :: (s3 % 4 * 64 + s4) :: bs)
        | none => none
      | _, _, _, _ => none

/-- `base64.b64decode`: discard foreign characters, then decode in quads. -/
def b64decode (s : List Char) : Option (List Nat) :=
  b64decodeQuads (s.filter keepB64Char)

/-! ## Decimal text (`str` of an integer, `int` of a string) -/

/-- Decimal digit character. -/
def digitChar (n : Nat) : Char := ("0123456789".toList).getD n '0'

/-- Decimal representation of a natural number, as Python `str` produces. -/
def natToDigits (n : Nat) : List Char :=
  if n < 10 then [digitChar n]
  else natToDigits (n / 10) ++ [digitChar (n % 10)]
termination_by n
decreasing_by omega

/-- Python `str` of an integer. -/
def intToChars (r : Int) : List Char :=
  if r < 0 then '-' :: natToDigits r.natAbs else natToDigits r.toNat

/-- Value of a decimal digit character. -/
def digitVal (c : Char) : Option Nat :=
  if '0' ≤ c ∧ c ≤ '9' then some (c.toNat - 48) else none

/-- Accumulating decimal scan; fails on a non-digit. -/
def parseDigitsGo (acc : Nat) : List Char → Option Nat
  | [] => some acc
  | c :: cs =>
    match digitVal c with
    | some d => parseDigitsGo (acc * 10 + d) cs
    | none => none

/-- Nonempty all-digit string to a natural number; `none` models the
`ValueError` Python `int` raises otherwise. -/
def parseDigits (s : List Char) : Option Nat :=
  if s = [] then none else parseDigitsGo 0 s

/-- Python `int` of a string, on the plain `digits` / `-digits` forms the
protocol produces. -/
def parseInt (s : List Char) : Option Int :=
  if s.take 1 = ['-'] then (parseDigits (s.drop 1)).map (fun n => -(n : Int))
  else (parseDigits s).map (fun n => (n : Int))

/-! ## Python string helpers (`partition`, `split`, `strip`) -/

/-- First occurrence of `sep` as a sub-list: the part before it and the part
after it, or `none` when `sep` does not occur. -/
def partitionAux (sep : List Char) : List Char → Option (List Char × List Char)
  | [] => none
  | c :: rest =>
    if sep.isPrefixOf (c :: rest) then some ([], (c :: rest).drop sep.length)
    else
      match partitionAux sep rest with
      | some (pre, post) => some (c :: pre, post)
      | none => none

/-- Python `s.partition(sep)`. -/
def pyPartition (s sep : List Char) : List Char × List Char × List Char :=
  match partitionAux sep s with
  | some (pre, post) => (pre, sep, post)
  | none => (s, [], [])

/-- Python `s.split(sep)` for a one-character separator. -/
def pySplit (sep : Char) : List Char → List (List Char)
  | [] => [[]]
  | c :: rest =>
    match pySplit sep rest with
    | [] => [[]]
    | g :: gs => if c = sep then [] :: g :: gs else (c :: g) :: gs

/-- Characters Python `str.strip` removes. -/
def isPySpace (c : Char) : Bool :=
  c = ' ' || c = '\t' || c = '\n' || c = '\r' || c = Char.ofNat 11 || c = Char.ofNat 12

/-- Python `s.strip()`. -/
def stripChars (s : List Char) : List Char :=
  ((s.dropWhile isPySpace).reverse.dropWhile isPySpace).reverse

/-! ## SOCKS5 reply codes (class ReplyType) -/

def SUCCEEDED : Nat := 0
def NETWORK_UNREACHABLE : Nat := 3
def TTL_EXPIRED : Nat := 6
def COMMAND_NOT_SUPPORTED : Nat := 7
def ADDRESS_TYPE_NOT_SUPPORTED : Nat := 8

/-! ## Observable effects -/

/-- One observable side effect of the modelled code. -/
inductive Effect where
  /-- `send_response`: a ten-byte SOCKS5 reply with the given code. -/
  | sendResponse (code : Nat)
  /-- `handler.connection.sendall`: bytes written to the client socket. -/
  | sendAll (data : List Nat)
  /-- `server._mq.put`: a frame enqueued on the shared outbound queue. -/
  | putFrame (frame : List Char)
  /-- A traceback written to stderr by an `except` handler. -/
  | logError
  /-- `spawn_worker`: a remote relay worker thread started. -/
  | spawnWorker (sid host : List Char) (port : Int)
  /-- A payload put on a remote session's inbound queue. -/
  | enqueue (sid : List Char) (data : List Nat)
  /-- `_send`: a DATA frame for `sid` written to the "out" stream. -/
  | sendFrame (sid : List Char) (data : List Nat)
  /-- `proxy_socket.sendall`: bytes written to the real outbound socket. -/
  | sockSend (data : List Nat)
  /-- `session_manager.create_session()` invoked. -/
  | createSession
  /-- `session.connect(handler, address)` invoked. -/
  | sessionConnect (host : Option (List Char)) (port : Option Nat)
  /-- `session.close()` invoked by the handler. -/
  | sessionClose
deriving DecidableEq

/-! ## Frame codec -/

/-- The frame marker `$BASE64$`. -/
def MARKER : List Char := "$BASE64$".toList

/-- DATA frame built by `ClipsSession.connect` and `SOCKSHandler._send`. -/
def encodeDataFrame (sid : List Char) (payload : List Nat) : List Char :=
  MARKER ++ sid ++ ['$'] ++ b64encode payload ++ ['\n']

/-- CONNECT frame built by `ClipsSession.connect`. -/
def encodeConnectFrame (sid : List Char) (host : List Char) (port : Nat) : List Char :=
  MARKER ++ sid ++ ['$', '$'] ++ natToDigits port ++ ['$'] ++ host ++ ['\n']

/-- Classification of one line by the remote reader (`SOCKSHandler.read`). -/
inductive FrameResult where
  /-- `return line`: not a command, handed back unchanged. -/
  | passthrough (line : List Char)
  /-- A CONNECT frame: session id, stripped address, parsed port. -/
  | connectF (sid host : List Char) (port : Int)
  /-- A DATA frame: session id and decoded payload. -/
  | dataF (sid : List Char) (payload : List Nat)
  /-- The `except` path: bad split shape, bad port, or bad base64. -/
  | malformed
deriving DecidableEq

/-- Per-line decoding logic of `SOCKSHandler.read`: partition on the marker,
return non-commands, partition off the session id, treat a leading `$` as a
CONNECT frame (`split` into three fields, strip the address, `int` the port),
otherwise base64-decode the payload. -/
def decodeLine (line : List Char) : FrameResult :=
  let p := pyPartition line MARKER
  if p.1 ≠ [] then .passthrough line
  else
    let q := pyPartition p.2.2 ['$']
    if q.2.2.take 1 = ['$'] then
      match pySplit '$' q.2.2 with
      | [_, portS, addrS] =>
        match parseInt portS with
        | some port => .connectF q.1 (stripChars addrS) port
        | none => .malformed
      | _ => .malformed
    else
      match b64decode q.2.2 with
      | some d => .dataF q.1 d
      | none => .malformed

/-- Per-line decoding of `ClipsSessionManager._stdin_worker`: strip the line,
skip empty lines and lines whose marker partition leaves a nonempty head,
else split off the session id and base64-decode the remainder. -/
def serverParseFrame (line : List Char) : Option (List Char × Option (List Nat)) :=
  let l := stripChars line
  if l = [] then none
  else
    let p := pyPartition l MARKER
    if p.1 = [] then
      let q := pyPartition p.2.2 ['$']
      some (q.1, b64decode q.2.2)
    else none

/-! ## Association-list registries (Python dicts keyed by session id) -/

/-- Dict lookup (`d[k]` when present). -/
def lookupA {α : Type} (sid : List Char) : List (List Char × α) → Option α
  | [] => none
  | (k, v) :: rest => if k = sid then some v else lookupA sid rest

/-- Dict assignment `d[k] = v`. -/
def updateA {α : Type} (sid : List Char) (v : α) : List (List Char × α) → List (List Char × α)
  | [] => [(sid, v)]
  | (k, w) :: rest => if k = sid then (k, v) :: rest else (k, w) :: updateA sid v rest

/-- Dict deletion `del d[k]`. -/
def removeA {α : Type} (sid : List Char) : List (List Char × α) → List (List Char × α)
  | [] => []
  | (k, v) :: rest => if k = sid then rest else (k, v) :: removeA sid rest

/-! ## Tunneled session (class ClipsSession) -/

/-- Mutable state of a `ClipsSession`: the `_is_alive` flag and the
`proxy_socket` attribute, which a tunneled session reuses to record the
remote connect result (`None` until the first response arrives). -/
structure ClipsSessionState where
  alive : Bool
  proxySocket : Option Int
deriving DecidableEq

/-- ASCII decoding of a byte string (`bytearray(data).decode()` under the
Python 2 default codec); fails on bytes at or above 128. -/
def decodeAscii (bs : List Nat) : Option (List Char) :=
  if bs.all (fun b => b < 128) then some (bs.map Char.ofNat) else none

/-- `int(bytearray(data).decode())`. -/
def asciiToInt (bs : List Nat) : Option Int :=
  (decodeAscii bs).bind parseInt

/-- `ClipsSession.get_response`: empty data closes the session; with the
connect outcome already recorded the data goes verbatim to the client socket;
otherwise the data is parsed as the ASCII connect result, `0` replying
SUCCEEDED and anything else replying NETWORK_UNREACHABLE and closing.
`Except.error` models the exception `int` raises on non-numeric data. -/
def clipsGetResponse (st : ClipsSessionState) (data : List Nat) :
    Except Unit (ClipsSessionState × List Effect) :=
  if data = [] then .ok ({ st with alive := false }, [])
  else
    match st.proxySocket with
    | some _ => .ok (st, [.sendAll data])
    | none =>
      match asciiToInt data with
      | none => .error ()
      | some r =>
        if r = 0 then .ok ({ st with proxySocket := some r }, [.sendResponse SUCCEEDED])
        else .ok ({ st with proxySocket := some r, alive := false },
          [.sendResponse NETWORK_UNREACHABLE])

/-- One event seen by the poll loop of `ClipsSession.connect`. -/
inductive ConnEvent where
  /-- `fd.recv` returned `data` (empty on client EOF). -/
  | recvData (data : List Nat)
  /-- `fd.recv` raised `IOError`. -/
  | recvErr
deriving DecidableEq

/-- CONNECT frame enqueued when `ClipsSession.connect` starts. -/
def clipsConnectStart (sid : List Char) (host : List Char) (port : Nat) : List Effect :=
  [.putFrame (encodeConnectFrame sid host port)]

/-- One iteration of the `ClipsSession.connect` relay loop: a read wraps the
bytes (even empty) as a DATA frame and enqueues it, then an empty read or an
`IOError` clears the alive flag. -/
def clipsConnectStep (sid : List Char) (alive : Bool) :
    ConnEvent → Bool × List Effect
  | .recvData d =>
    (if d = [] then false else alive, [.putFrame (encodeDataFrame sid d)])
  | .recvErr => (false, [])

/-! ## Local multiplexer reader (ClipsSessionManager._stdin_worker) -/

/-- One line of `_stdin_worker`: decode the frame, look the session up, call
`get_response`, and turn any exception (bad base64 via `b64decode = none`,
unknown id via `lookupA = none`, or one raised inside `get_response`) into a
logged traceback, leaving the registry unchanged. -/
def stdinStep (reg : List (List Char × ClipsSessionState)) (line : List Char) :
    List (List Char × ClipsSessionState) × List Effect :=
  match serverParseFrame line with
  | none => (reg, [])
  | some (sid, dataOpt) =>
    match dataOpt with
    | none => (reg, [.logError])
    | some data =>
      match lookupA sid reg with
      | none => (reg, [.logError])
      | some st =>
        match clipsGetResponse st data with
        | .error _ => (reg, [.logError])
        | .ok (st1, effs) => (updateA sid st1 reg, effs)

/-- The `_stdin_worker` loop over a list of input lines. -/
def stdinWorker :
    List (List Char × ClipsSessionState) → List (List Char) →
    List (List Char × ClipsSessionState) × List Effect
  | reg, [] => (reg, [])
  | reg, line :: rest =>
    let s := stdinStep reg line
    let r := stdinWorker s.1 rest
    (r.1, s.2 ++ r.2)

/-! ## Remote peer (class SOCKSHandler) -/

/-- Remote-side session entry: destination address, port, inbound queue. -/
abbrev ProxyEntry := List Char × Int × List (List Nat)

/-- One line of `SOCKSHandler.read`: pass non-commands back to the caller,
register + spawn on a CONNECT frame, enqueue payload of a DATA frame whose
session is known, and log (leaving the map unchanged) on a malformed frame or
an unknown session id. -/
def proxyReadStep (ss : List (List Char × ProxyEntry)) (line : List Char) :
    List (List Char × ProxyEntry) × List Effect × Option (List Char) :=
  match decodeLine line with
  | .passthrough l => (ss, [], some l)
  | .connectF sid host port =>
    (updateA sid (host, port, []) ss, [.spawnWorker sid host port], none)
  | .dataF sid d =>
    match lookupA sid ss with
    | some e => (updateA sid (e.1, e.2.1, e.2.2 ++ [d]) ss, [.enqueue sid d], none)
    | none => (ss, [.logError], none)
  | .malformed => (ss, [.logError], none)

/-- The `read` loop: handle command lines until one is returned. -/
def proxyReadLoop :
    List (List Char × ProxyEntry) → List (List Char) →
    List (List Char × ProxyEntry) × List Effect × Option (List Char)
  | ss, [] => (ss, [], none)
  | ss, line :: rest =>
    match proxyReadStep ss line with
    | (ss1, effs, some l) => (ss1, effs, some l)
    | (ss1, effs, none) =>
      let r := proxyReadLoop ss1 rest
      (r.1, effs ++ r.2.1, r.2.2)

/-- One event seen by the relay loop of `SOCKSHandler._worker`. -/
inductive WEvent where
  /-- `fd.recv` on the real socket returned `data` (empty on EOF). -/
  | recvData (data : List Nat)
  /-- `fd.recv` raised `IOError`. -/
  | recvErr
  /-- An item dequeued from the session's inbound queue. -/
  | deqItem (data : List Nat)
deriving DecidableEq

/-- One event of the `_worker` relay loop.  A socket read is sent out as a
DATA frame before the empty check; an empty read deletes the session entry
and stops; an `IOError` or an empty dequeued item stops without deleting;
a nonempty dequeued item goes to the real socket.  Returns the updated
session map, the continuation flag (`is_alive`), and the effects. -/
def workerStep (sid : List Char) (ss : List (List Char × ProxyEntry)) :
    WEvent → List (List Char × ProxyEntry) × Bool × List Effect
  | .recvData d =>
    if d = [] then (removeA sid ss, false, [.sendFrame sid d, .logError])
    else (ss, true, [.sendFrame sid d])
  | .recvErr => (ss, false, [.logError])
  | .deqItem d =>
    if d = [] then (ss, false, [.logError])
    else (ss, true, [.sockSend d])

/-- The `_worker` relay loop over a list of events, stopping at the first
event that clears `is_alive`. -/
def workerRun (sid : List Char) :
    List (List Char × ProxyEntry) → List WEvent →
    List (List Char × ProxyEntry) × List Effect
  | ss, [] => (ss, [])
  | ss, e :: rest =>
    match workerStep sid ss e with
    | (ss1, true, effs) =>
      let r := workerRun sid ss1 rest
      (r.1, effs ++ r.2)
    | (ss1, false, effs) => (ss1, effs)

/-- Whole `_worker` body: send the `connect_ex` result as an ASCII DATA
frame; a nonzero result returns at once (the entry stays in the map),
otherwise the relay loop runs. -/
def workerRunFull (sid : List Char) (ss : List (List Char × ProxyEntry))
    (result : Int) (events : List WEvent) :
    List (List Char × ProxyEntry) × List Effect :=
  let e0 := Effect.sendFrame sid ((intToChars result).map Char.toNat)
  if result = 0 then
    let r := workerRun sid ss events
    (r.1, e0 :: r.2)
  else (ss, [e0])

/-! ## Session registry (class SessionManager) -/

/-- `SessionManager.ID_CHARSET` (`string.letters + string.digits`). -/
def ID_CHARSET : List Char :=
  "abcdefghijklmnopqrstuvwxyzABCDEFGHIJKLMNOPQRSTUVWXYZ0123456789".toList

/-- `_create_session_id`: draw eight characters from the stream of
`random.choice` results, retry while the candidate is a key of the registry.
`fuel` bounds the retry loop so the function is total; `none` means the
bound was exhausted. -/
def createSessionId (fuel : Nat) (choices : List Char) (keys : List (List Char)) :
    Option (List Char) :=
  match fuel with
  | 0 => none
  | f + 1 =>
    let cand := choices.take 8
    if cand ∈ keys then createSessionId f (choices.drop 8) keys
    else some cand

/-- `create_session`: allocate a fresh id and insert a new session,
alive with no connect result recorded. -/
def createSession (fuel : Nat) (choices : List Char)
    (reg : List (List Char × ClipsSessionState)) :
    Option (List Char × List (List Char × ClipsSessionState)) :=
  match createSessionId fuel choices (reg.map Prod.fst) with
  | some sid => some (sid, updateA sid { alive := true, proxySocket := none } reg)
  | none => none

/-! ## Direct session (class Session) and SOCKS5 front-end -/

/-- Reply code of `Session.connect` for a given `connect_ex` result. -/
def directConnectReply (result : Int) : Nat :=
  if result = 0 then SUCCEEDED
  else if result = 60 then TTL_EXPIRED
  else if result = 61 then NETWORK_UNREACHABLE
  else NETWORK_UNREACHABLE

/-- Whether `Session.connect` enters its relay loop. -/
def directConnectRelays (result : Int) : Bool :=
  if result = 0 then true else false

/-- Address phase of `Socks5RequestHandler.handle`: IPv4 and domain types
yield an address; any other type sends ADDRESS_TYPE_NOT_SUPPORTED and leaves
the address fields `None`. -/
def addressPhase (atyp : Nat) (ipv4Host domainHost : List Char) (port : Nat) :
    (Option (List Char) × Option Nat) × List Effect :=
  if atyp = 1 then ((some ipv4Host, some port), [])
  else if atyp = 3 then ((some domainHost, some port), [])
  else ((none, none), [.sendResponse ADDRESS_TYPE_NOT_SUPPORTED])

/-- Command phase of `handle`: CONNECT creates a session, delegates to
`session.connect` with whatever address the address phase left, then closes;
anything else sends COMMAND_NOT_SUPPORTED. -/
def commandPhase (command : Nat) (address : Option (List Char) × Option Nat) :
    List Effect :=
  if command = 1 then [.createSession, .sessionConnect address.1 address.2, .sessionClose]
  else [.sendResponse COMMAND_NOT_SUPPORTED]

/-- Request handling of `handle` after method negotiation: the address phase
runs, and control always falls through into the command phase. -/
def handleRequest (command atyp : Nat) (ipv4Host domainHost : List Char) (port : Nat) :
    List Effect :=
  let a := addressPhase atyp ipv4Host domainHost port
  a.2 ++ commandPhase command a.1

/-! ## Base64 codec lemmas -/

theorem sextet_rt (n : Nat) (h : n < 64) : decodeSextet (encodeSextet n) = some n := by
  have hall : ∀ m : Fin 64, decodeSextet (encodeSextet m.val) = some m.val := by decide
  exact hall ⟨n, h⟩

theorem keepB64Char_encodeSextet (n : Nat) (h : n < 64) :
    keepB64Char (encodeSextet n) = true := by
  simp [keepB64Char, sextet_rt n h]

theorem encodeSextet_ne_pad (n : Nat) (h : n < 64) : encodeSextet n ≠ '=' := by
  intro he
  have h1 := sextet_rt n h
  have h2 : decodeSextet '=' = none := by decide
  rw [he, h2] at h1
  exact Option.noConfusion h1

theorem b64encode_kept : ∀ bs : List Nat, (∀ b ∈ bs, b < 256) →
    ∀ c ∈ b64encode bs, keepB64Char c = true
  | [], _, c, hc => by simp [b64encode] at hc
  | [a], h, c, hc => by
    have ha : a < 256 := h a (by simp)
    simp only [b64encode, List.mem_cons, List.not_mem_nil, or_false] at hc
    rcases hc with rfl | rfl | rfl | rfl
    · exact keepB64Char_encodeSextet _ (by omega)
    · exact keepB64Char_encodeSextet _ (by omega)
    · decide
    · decide
  | [a, b], h, c, hc => by
    have ha : a < 256 := h a (by simp)
    have hb : b < 256 := h b (by simp)
    simp only [b64encode, List.mem_cons, List.not_mem_nil, or_false] at hc
    rcases hc with rfl | rfl | rfl | rfl
    · exact keepB64Char_encodeSextet _ (by omega)
    · exact keepB64Char_encodeSextet _ (by omega)
    · exact keepB64Char_encodeSextet _ (by omega)
    · decide
  | a :: b :: c0 :: rest, h, c, hc => by
    have ha : a < 256 := h a (by simp)
    have hb : b < 256 := h b (by simp)
    have hc0 : c0 < 256 := h c0 (by simp)
    simp only [b64encode, List.mem_cons] at hc
    rcases hc with rfl | rfl | rfl | rfl | hm
    · exact keepB64Char_encodeSextet _ (by omega)
    · exact keepB64Char_encodeSextet _ (by omega)
    · exact keepB64Char_encodeSextet _ (by omega)
    · exact keepB64Char_encodeSextet _ (by omega)
    · exact b64encode_kept rest (fun x hx => h x (by simp [hx])) c hm

theorem filter_b64encode (bs : List Nat) (h : ∀ b ∈ bs, b < 256) :
    (b64encode bs).filter keepB64Char = b64encode bs :=
  List.filter_eq_self.mpr (b64encode_kept bs h)

theorem b64decodeQuads_encode : ∀ bs : List Nat, (∀ b ∈ bs, b < 256) →
    b64decodeQuads (b64encode bs) = some bs
  | [], _ => rfl
  | [a], h => by
    have ha : a < 256 := h a (by simp)
    simp [b64encode, b64decodeQuads, sextet_rt (a / 4) (by omega),
      sextet_rt (a % 4 * 16) (by omega)]
    omega
  | [a, b], h => by
    have ha : a < 256 := h a (by simp)
    have hb : b < 256 := h b (by simp)
    simp [b64encode, b64decodeQuads, sextet_rt (a / 4) (by omega),
      sextet_rt (a % 4 * 16 + b / 16) (by omega), sextet_rt (b % 16 * 4) (by omega),
      encodeSextet_ne_pad (b % 16 * 4) (by omega)]
    omega
  | a :: b :: c0 :: rest, h => by
    have ha : a < 256 := h a (by simp)
    have hb : b < 256 := h b (by simp)
    have hc0 : c0 < 256 := h c0 (by simp)
    have ih := b64decodeQuads_encode rest (fun x hx => h x (by simp [hx]))
    simp [b64encode, b64decodeQuads, sextet_rt (a / 4) (by omega),
      sextet_rt (a % 4 * 16 + b / 16) (by omega),
      sextet_rt (b % 16 * 4 + c0 / 64) (by omega), sextet_rt (c0 % 64) (by omega),
      encodeSextet_ne_pad (b % 16 * 4 + c0 / 64) (by omega),
      encodeSextet_ne_pad (c0 % 64) (by omega), ih]
    omega

theorem b64decode_encode (bs : List Nat) (h : ∀ b ∈ bs, b < 256) :
    b64decode (b64encode bs) = some bs := by
  unfold b64decode
  rw [filter_b64encode bs h]
  exact b64decodeQuads_encode bs h

theorem b64decode_encode_newline (bs : List Nat) (h : ∀ b ∈ bs, b < 256) :
    b64decode (b64encode bs ++ ['\n']) = some bs := by
  unfold b64decode
  rw [List.filter_append, filter_b64encode bs h]
  have h1 : (['\n'].filter keepB64Char) = [] := by decide
  rw [h1, List.append_nil]
  exact b64decodeQuads_encode bs h

/-! ## Decimal text lemmas -/

theorem digitVal_digitChar (n : Nat) (h : n < 10) : digitVal (digitChar n) = some n := by
  have hall : ∀ m : Fin 10, digitVal (digitChar m.val) = some m.val := by decide
  exact hall ⟨n, h⟩

theorem natToDigits_ne_nil (n : Nat) : natToDigits n ≠ [] := by
  rw [natToDigits]
  split
  · simp
  · simp

theorem natToDigits_digits (n : Nat) : ∀ c ∈ natToDigits n, (digitVal c).isSome := by
  induction n using Nat.strong_induction_on with
  | _ n ih =>
    rw [natToDigits]
    split
    · next h =>
      intro c hc
      simp only [List.mem_cons, List.not_mem_nil, or_false] at hc
      subst hc
      simp [digitVal_digitChar n h]
    · next h =>
      intro c hc
      rw [List.mem_append] at hc
      rcases hc with hc | hc
      · exact ih (n / 10) (by omega) c hc
      · simp only [List.mem_cons, List.not_mem_nil, or_false] at hc
        subst hc
        simp [digitVal_digitChar (n % 10) (by omega)]

theorem parseDigitsGo_append (acc : Nat) (xs ys : List Char) :
    parseDigitsGo acc (xs ++ ys)
      = (parseDigitsGo acc xs).bind (fun a => parseDigitsGo a ys) := by
  induction xs generalizing acc with
  | nil => simp [parseDigitsGo]
  | cons c cs ih =>
    cases hd : digitVal c with
    | none => simp [parseDigitsGo, hd]
    | some d => simp [parseDigitsGo, hd, ih]

theorem parseDigitsGo_natToDigits (n : Nat) :
    ∀ acc, parseDigitsGo acc (natToDigits n)
      = some (acc * 10 ^ (natToDigits n).length + n) := by
  induction n using Nat.strong_induction_on with
  | _ n ih =>
    intro acc
    by_cases h : n < 10
    · rw [natToDigits, if_pos h]
      simp [parseDigitsGo, digitVal_digitChar n h]
    · rw [natToDigits, if_neg h]
      rw [parseDigitsGo_append]
      rw [ih (n / 10) (by omega) acc]
      simp only [Option.bind_some, parseDigitsGo, digitVal_digitChar (n % 10) (by omega),
        List.length_append, List.length_cons, List.length_nil, Nat.zero_add]
      rw [pow_succ, ← mul_assoc]
      simp only [Option.some_bind, Option.some.injEq]
      omega

theorem parseDigits_natToDigits (n : Nat) : parseDigits (natToDigits n) = some n := by
  unfold parseDigits
  rw [if_neg (natToDigits_ne_nil n), parseDigitsGo_natToDigits n 0]
  simp

theorem natToDigits_take_ne (n : Nat) : (natToDigits n).take 1 ≠ ['-'] := by
  cases hh : natToDigits n with
  | nil => exact absurd hh (natToDigits_ne_nil n)
  | cons c cs =>
    have hc : (digitVal c).isSome := by
      refine natToDigits_digits n c ?_
      rw [hh]
      exact List.mem_cons_self c cs
    simp only [List.take_succ_cons, List.take_zero, ne_eq, List.cons.injEq, and_true]
    rintro rfl
    simp [digitVal] at hc

theorem parseInt_natToDigits (n : Nat) : parseInt (natToDigits n) = some (n : Int) := by
  unfold parseInt
  rw [if_neg (natToDigits_take_ne n), parseDigits_natToDigits n]
  simp

theorem digit_not_special (c : Char) (h : (digitVal c).isSome) :
    isPySpace c = false ∧ c ≠ '$' ∧ c ≠ '-' := by
  unfold digitVal at h
  split at h
  · next h09 =>
    obtain ⟨h0, h9⟩ := h09
    have l1 : c ≠ ' ' := by rintro rfl; exact absurd h0 (by decide)
    have l2 : c ≠ '\t' := by rintro rfl; exact absurd h0 (by decide)
    have l3 : c ≠ '\n' := by rintro rfl; exact absurd h0 (by decide)
    have l4 : c ≠ '\r' := by rintro rfl; exact absurd h0 (by decide)
    have l5 : c ≠ Char.ofNat 11 := by rintro rfl; exact absurd h0 (by decide)
    have l6 : c ≠ Char.ofNat 12 := by rintro rfl; exact absurd h0 (by decide)
    refine ⟨by simp [isPySpace, l1, l2, l3, l4, l5, l6], ?_, ?_⟩
    · rintro rfl; exact absurd h0 (by decide)
    · rintro rfl; exact absurd h0 (by decide)
  · simp at h

theorem natToDigits_not_special (n : Nat) :
    ∀ c ∈ natToDigits n, isPySpace c = false ∧ c ≠ '$' :=
  fun c hc =>
    ⟨(digit_not_special c (natToDigits_digits n c hc)).1,
     (digit_not_special c (natToDigits_digits n c hc)).2.1⟩

/-! ## Partition, split and strip lemmas -/

theorem partitionAux_head (sep b : List Char) (hne : sep ≠ []) :
    partitionAux sep (sep ++ b) = some ([], b) := by
  cases sep with
  | nil => exact absurd rfl hne
  | cons c cs =>
    have h1 : (c :: cs).isPrefixOf (c :: (cs ++ b)) = true := by
      rw [List.isPrefixOf_iff_prefix]
      exact ⟨b, by simp⟩
    have h2 : (c :: (cs ++ b)).drop (c :: cs).length = b := by
      have h3 := List.drop_left (c :: cs) b
      rw [List.cons_append] at h3
      exact h3
    rw [List.cons_append, partitionAux]
    simp [h1, h2]

theorem partitionAux_single (c : Char) (a b : List Char) (h : c ∉ a) :
    partitionAux [c] (a ++ c :: b) = some (a, b) := by
  induction a with
  | nil =>
    have h1 := partitionAux_head [c] b (by simp)
    simpa using h1
  | cons x xs ih =>
    simp only [List.mem_cons, not_or] at h
    obtain ⟨h1, h2⟩ := h
    have hnp : ([c].isPrefixOf (x :: (xs ++ c :: b))) = false := by
      simp [List.isPrefixOf]
      exact h1
    rw [List.cons_append, partitionAux]
    simp only [hnp, Bool.false_eq_true, if_false]
    rw [ih h2]

theorem partitionAux_occurs (sep : List Char) :
    ∀ s pre post : List Char,
      partitionAux sep s = some (pre, post) → s = pre ++ sep ++ post := by
  intro s
  induction s with
  | nil => intro pre post h; simp [partitionAux] at h
  | cons c rest ih =>
    intro pre post h
    rw [partitionAux] at h
    split at h
    · next hp =>
      obtain ⟨t, ht⟩ := (List.isPrefixOf_iff_prefix).mp hp
      simp only [Option.some.injEq, Prod.mk.injEq] at h
      obtain ⟨hpre, hpost⟩ := h
      subst hpre
      have hd : (c :: rest).drop sep.length = t := by
        rw [← ht]; exact List.drop_left sep t
      rw [hd] at hpost
      subst hpost
      simp [← ht]
    · next hp =>
      cases hr : partitionAux sep rest with
      | none => rw [hr] at h; simp at h
      | some pr =>
        rw [hr] at h
        obtain ⟨pre1, post1⟩ := pr
        simp only [Option.some.injEq, Prod.mk.injEq] at h
        obtain ⟨hpre, hpost⟩ := h
        have hrest := ih pre1 post1 hr
        rw [← hpre, ← hpost, hrest]
        simp

theorem partitionAux_isSome (sep : List Char) (hne : sep ≠ []) :
    ∀ a b : List Char, (partitionAux sep (a ++ sep ++ b)).isSome = true := by
  intro a
  induction a with
  | nil => intro b; simp [partitionAux_head sep b hne]
  | cons x xs ih =>
    intro b
    simp only [List.cons_append, List.append_assoc]
    rw [partitionAux]
    split
    · simp
    · have hx := ih b
      simp only [List.append_assoc] at hx
      cases hr : partitionAux sep (xs ++ (sep ++ b)) with
      | none => rw [hr] at hx; simp at hx
      | some pr =>
        obtain ⟨pre1, post1⟩ := pr
        simp [hr]

theorem pySplit_ne_nil (sep : Char) (l : List Char) : pySplit sep l ≠ [] := by
  cases l with
  | nil => simp [pySplit]
  | cons c rest =>
    cases hr : pySplit sep rest with
    | nil => simp [pySplit, hr]
    | cons g gs =>
      simp only [pySplit, hr]
      split <;> simp

theorem pySplit_no_sep (sep : Char) (l : List Char) (h : ∀ x ∈ l, x ≠ sep) :
    pySplit sep l = [l] := by
  induction l with
  | nil => rfl
  | cons c rest ih =>
    have h1 : c ≠ sep := h c (by simp)
    have h2 : ∀ x ∈ rest, x ≠ sep := fun x hx => h x (by simp [hx])
    simp [pySplit, ih h2, h1]

theorem pySplit_sep_cons (sep : Char) (l : List Char) :
    pySplit sep (sep :: l) = [] :: pySplit sep l := by
  cases hr : pySplit sep l with
  | nil => exact absurd hr (pySplit_ne_nil sep l)
  | cons g gs => simp [pySplit, hr]

theorem pySplit_append (sep : Char) (a b : List Char) (h : ∀ x ∈ a, x ≠ sep) :
    pySplit sep (a ++ sep :: b) = a :: pySplit sep b := by
  induction a with
  | nil =>
    have h1 := pySplit_sep_cons sep b
    simpa using h1
  | cons x xs ih =>
    have h1 : x ≠ sep := h x (by simp)
    have h2 : ∀ y ∈ xs, y ≠ sep := fun y hy => h y (by simp [hy])
    have hr := ih h2
    cases hg : pySplit sep (xs ++ sep :: b) with
    | nil => exact absurd hg (pySplit_ne_nil _ _)
    | cons g gs =>
      rw [hg] at hr
      simp only [List.cons.injEq] at hr
      obtain ⟨hg1, hg2⟩ := hr
      rw [List.cons_append]
      simp [pySplit, hg, h1, hg1, hg2]

theorem dropWhile_all_false (p : Char → Bool) :
    ∀ l : List Char, (∀ c ∈ l, p c = false) → List.dropWhile p l = l
  | [], _ => rfl
  | c :: t, h => by simp [List.dropWhile_cons, h c (by simp)]

theorem strip_nonspace_newline (xs : List Char) (h : ∀ c ∈ xs, isPySpace c = false) :
    stripChars (xs ++ ['\n']) = xs := by
  cases xs with
  | nil => rfl
  | cons x t =>
    have hx : isPySpace x = false := h x (by simp)
    unfold stripChars
    rw [List.cons_append, List.dropWhile_cons, hx]
    simp only [Bool.false_eq_true, if_false]
    rw [show x :: (t ++ ['\n']) = (x :: t) ++ ['\n'] by simp]
    rw [List.reverse_append]
    have hn : (['\n'] : List Char).reverse = ['\n'] := rfl
    rw [hn, List.singleton_append, List.dropWhile_cons]
    have hsp : isPySpace '\n' = true := by decide
    rw [hsp]
    simp only [if_true]
    rw [dropWhile_all_false isPySpace (x :: t).reverse
      (fun c hc => h c (List.mem_reverse.mp hc))]
    exact List.reverse_reverse (x :: t)

theorem stripChars_within (s : List Char) : ∃ u v, s = u ++ stripChars s ++ v := by
  refine ⟨s.takeWhile isPySpace,
    ((s.dropWhile isPySpace).reverse.takeWhile isPySpace).reverse, ?_⟩
  conv_lhs => rw [← List.takeWhile_append_dropWhile isPySpace s]
  rw [List.append_assoc]
  congr 1
  unfold stripChars
  calc s.dropWhile isPySpace
      = (s.dropWhile isPySpace).reverse.reverse := (List.reverse_reverse _).symm
    _ = (List.takeWhile isPySpace (s.dropWhile isPySpace).reverse
          ++ List.dropWhile isPySpace (s.dropWhile isPySpace).reverse).reverse := by
        rw [List.takeWhile_append_dropWhile]
    _ = (List.dropWhile isPySpace (s.dropWhile isPySpace).reverse).reverse
          ++ (List.takeWhile isPySpace (s.dropWhile isPySpace).reverse).reverse := by
        rw [List.reverse_append]

theorem no_marker_after_strip (line : List Char)
    (h : partitionAux MARKER line = none) :
    partitionAux MARKER (stripChars line) = none := by
  by_contra hne
  obtain ⟨pr, hsome⟩ := Option.ne_none_iff_exists'.mp hne
  obtain ⟨pre, post⟩ := pr
  have hocc := partitionAux_occurs MARKER (stripChars line) pre post hsome
  obtain ⟨u, v, huv⟩ := stripChars_within line
  have hline : line = (u ++ pre) ++ MARKER ++ (post ++ v) := by
    rw [huv, hocc]
    simp [List.append_assoc]
  have hs := partitionAux_isSome MARKER (by decide) (u ++ pre) (post ++ v)
  rw [← hline, h] at hs
  simp at hs


theorem marker_not_space : ∀ c ∈ MARKER, isPySpace c = false := by decide

theorem idcharset_not_special : ∀ c ∈ ID_CHARSET, isPySpace c = false ∧ c ≠ '$' := by
  decide

theorem findIdx_mem (c : Char) : ∀ (l : List Char) (i j : Nat),
    findIdx c l i = some j → c ∈ l
  | [], i, j, h => by simp [findIdx] at h
  | x :: xs, i, j, h => by
    rw [findIdx] at h
    split at h
    · next hx => exact List.mem_cons.mpr (Or.inl hx.symm)
    · exact List.mem_cons_of_mem x (findIdx_mem c xs (i + 1) j h)

theorem keep_not_special (c : Char) (h : keepB64Char c = true) :
    isPySpace c = false ∧ c ≠ '$' := by
  unfold keepB64Char at h
  have hd : (decodeSextet c).isSome = true ∨ c = '=' := by simpa using h
  rcases hd with h1 | h1
  · obtain ⟨j, hj⟩ := Option.isSome_iff_exists.mp h1
    have hmem : c ∈ b64Alphabet := findIdx_mem c b64Alphabet 0 j hj
    have halpha : ∀ x ∈ b64Alphabet, isPySpace x = false ∧ x ≠ '$' := by decide
    exact halpha c hmem
  · subst h1
    decide

theorem b64_newline_take (p : List Nat) (h : ∀ b ∈ p, b < 256) :
    (b64encode p ++ ['\n']).take 1 ≠ ['$'] := by
  cases hp : b64encode p with
  | nil => decide
  | cons c cs =>
    have hc : c ≠ '$' :=
      (keep_not_special c (b64encode_kept p h c (by rw [hp]; simp))).2
    simp [hc]

theorem decodeLine_data (sid : List Char) (p : List Nat)
    (hsid : ∀ c ∈ sid, c ≠ '$') (hp : ∀ b ∈ p, b < 256) :
    decodeLine (encodeDataFrame sid p) = FrameResult.dataF sid p := by
  have hdollar : '$' ∉ sid := fun hmem => hsid '$' hmem rfl
  have hpp : pyPartition (encodeDataFrame sid p) MARKER
      = ([], MARKER, sid ++ ('$' :: (b64encode p ++ ['\n']))) := by
    unfold pyPartition encodeDataFrame
    rw [show MARKER ++ sid ++ ['$'] ++ b64encode p ++ ['\n']
        = MARKER ++ (sid ++ ('$' :: (b64encode p ++ ['\n']))) by simp]
    rw [partitionAux_head _ _ (by decide)]
  have hq : pyPartition (sid ++ ('$' :: (b64encode p ++ ['\n']))) ['$']
      = (sid, ['$'], b64encode p ++ ['\n']) := by
    unfold pyPartition
    rw [partitionAux_single '$' sid _ hdollar]
  simp only [decodeLine, hpp, hq]
  simp only [ne_eq, not_true_eq_false, if_false, reduceIte]
  rw [if_neg (b64_newline_take p hp)]
  rw [b64decode_encode_newline p hp]

theorem decodeLine_connect (sid host : List Char) (port : Nat)
    (hsid : ∀ c ∈ sid, c ≠ '$')
    (hhost : ∀ c ∈ host, isPySpace c = false ∧ c ≠ '$') :
    decodeLine (encodeConnectFrame sid host port)
      = FrameResult.connectF sid host (port : Int) := by
  have hdollar : '$' ∉ sid := fun hmem => hsid '$' hmem rfl
  have hpp : pyPartition (encodeConnectFrame sid host port) MARKER
      = ([], MARKER,
          sid ++ ('$' :: ('$' :: (natToDigits port ++ ('$' :: (host ++ ['\n'])))))) := by
    unfold pyPartition encodeConnectFrame
    rw [show MARKER ++ sid ++ ['$', '$'] ++ natToDigits port ++ ['$'] ++ host ++ ['\n']
        = MARKER ++ (sid ++ ('$' :: ('$' :: (natToDigits port ++ ('$' :: (host ++ ['\n']))))))
        by simp]
    rw [partitionAux_head _ _ (by decide)]
  have hq : pyPartition
      (sid ++ ('$' :: ('$' :: (natToDigits port ++ ('$' :: (host ++ ['\n'])))))) ['$']
      = (sid, ['$'], '$' :: (natToDigits port ++ ('$' :: (host ++ ['\n'])))) := by
    unfold pyPartition
    rw [partitionAux_single '$' sid _ hdollar]
  have hsplit : pySplit '$' ('$' :: (natToDigits port ++ ('$' :: (host ++ ['\n']))))
      = [[], natToDigits port, host ++ ['\n']] := by
    rw [pySplit_sep_cons]
    rw [pySplit_append '$' (natToDigits port) (host ++ ['\n'])
      (fun x hx => (natToDigits_not_special port x hx).2)]
    rw [pySplit_no_sep '$' (host ++ ['\n']) ?hn]
    case hn =>
      intro x hx
      rcases List.mem_append.mp hx with hx1 | hx1
      · exact (hhost x hx1).2
      · simp only [List.mem_cons, List.not_mem_nil, or_false] at hx1
        subst hx1
        decide
  simp only [decodeLine, hpp, hq]
  simp only [ne_eq, not_true_eq_false, if_false, reduceIte]
  rw [if_pos (by simp)]
  rw [hsplit]
  simp only [parseInt_natToDigits port,
    strip_nonspace_newline host (fun c hc => (hhost c hc).1)]

theorem serverParseFrame_data (sid : List Char) (p : List Nat)
    (hsid : ∀ c ∈ sid, isPySpace c = false ∧ c ≠ '$') (hp : ∀ b ∈ p, b < 256) :
    serverParseFrame (encodeDataFrame sid p) = some (sid, some p) := by
  have hdollar : '$' ∉ sid := fun hmem => (hsid '$' hmem).2 rfl
  have hstrip : stripChars (encodeDataFrame sid p)
      = MARKER ++ sid ++ ['$'] ++ b64encode p := by
    unfold encodeDataFrame
    refine strip_nonspace_newline _ ?_
    intro c hc
    simp only [List.mem_append, List.mem_cons, List.not_mem_nil, or_false] at hc
    rcases hc with ((hc | hc) | hc) | hc
    · exact marker_not_space c hc
    · exact (hsid c hc).1
    · subst hc; decide
    · exact (keep_not_special c (b64encode_kept p hp c hc)).1
  have hne : MARKER ++ sid ++ ['$'] ++ b64encode p ≠ [] := by simp [MARKER]
  have hpp : pyPartition (MARKER ++ sid ++ ['$'] ++ b64encode p) MARKER
      = ([], MARKER, sid ++ ('$' :: b64encode p)) := by
    unfold pyPartition
    rw [show MARKER ++ sid ++ ['$'] ++ b64encode p
        = MARKER ++ (sid ++ ('$' :: b64encode p)) by simp]
    rw [partitionAux_head _ _ (by decide)]
  have hq : pyPartition (sid ++ ('$' :: b64encode p)) ['$']
      = (sid, ['$'], b64encode p) := by
    unfold pyPartition
    rw [partitionAux_single '$' sid _ hdollar]
  simp only [serverParseFrame, hstrip, hne, hpp, hq, b64decode_encode p hp,
    ne_eq, not_true_eq_false, if_false, reduceIte]

/-- C1: frame codec round-trip.  Encoding a DATA frame for any session id
(drawn from the id alphabet) and any binary payload and then decoding it — by
the remote reader or by the local in-stream reader — yields the session id
and payload exactly; encoding a CONNECT frame preserves session id, host and
port exactly through the remote reader. -/
theorem c1_frame_codec_roundtrip (sid host : List Char) (p : List Nat) (port : Nat)
    (hsid : ∀ c ∈ sid, c ∈ ID_CHARSET)
    (hp : ∀ b ∈ p, b < 256)
    (hhost : ∀ c ∈ host, isPySpace c = false ∧ c ≠ '$') :
    decodeLine (encodeDataFrame sid p) = FrameResult.dataF sid p
    ∧ serverParseFrame (encodeDataFrame sid p) = some (sid, some p)
    ∧ decodeLine (encodeConnectFrame sid host port)
        = FrameResult.connectF sid host (port : Int) := by
  have hs : ∀ c ∈ sid, isPySpace c = false ∧ c ≠ '$' :=
    fun c hc => idcharset_not_special c (hsid c hc)
  exact ⟨decodeLine_data sid p (fun c hc => (hs c hc).2) hp,
    serverParseFrame_data sid p hs hp,
    decodeLine_connect sid host port (fun c hc => (hs c hc).2) hhost⟩

/-- Witness for C1 at a concrete session id, payload and destination. -/
theorem c1_frame_codec_roundtrip_witness :
    decodeLine (encodeDataFrame ("ab12cd34".toList) [0, 129, 255])
        = FrameResult.dataF ("ab12cd34".toList) [0, 129, 255]
    ∧ serverParseFrame (encodeDataFrame ("ab12cd34".toList) [0, 129, 255])
        = some (("ab12cd34".toList), some [0, 129, 255])
    ∧ decodeLine (encodeConnectFrame ("ab12cd34".toList) ("example.com".toList) 8080)
        = FrameResult.connectF ("ab12cd34".toList) ("example.com".toList) 8080 :=
  c1_frame_codec_roundtrip ("ab12cd34".toList) ("example.com".toList) [0, 129, 255] 8080
    (by decide) (by decide) (by decide)

/-! ## Association-list lemmas -/

theorem lookupA_updateA_self {α : Type} (sid : List Char) (v : α) :
    ∀ l, lookupA sid (updateA sid v l) = some v
  | [] => by simp [updateA, lookupA]
  | (k, w) :: rest => by
    by_cases hk : k = sid
    · simp [updateA, hk, lookupA]
    · simp [updateA, hk, lookupA, lookupA_updateA_self sid v rest]

theorem lookupA_updateA_ne {α : Type} (sid k0 : List Char) (v : α) (hne : k0 ≠ sid) :
    ∀ l, lookupA sid (updateA k0 v l) = lookupA sid l
  | [] => by simp [updateA, lookupA, hne]
  | (k, w) :: rest => by
    by_cases hk : k = k0
    · subst hk; simp [updateA, lookupA, hne]
    · simp [updateA, hk, lookupA, lookupA_updateA_ne sid k0 v hne rest]

theorem updateA_keys_fresh {α : Type} (sid : List Char) (v : α) :
    ∀ l : List (List Char × α), sid ∉ l.map Prod.fst →
      (updateA sid v l).map Prod.fst = l.map Prod.fst ++ [sid]
  | [], _ => rfl
  | (k, w) :: rest, h => by
    simp only [List.map_cons, List.mem_cons, not_or] at h
    have hk : k ≠ sid := fun he => h.1 he.symm
    simp [updateA, hk, updateA_keys_fresh sid v rest h.2]

theorem lookupA_eq_none {α : Type} (sid : List Char) :
    ∀ l : List (List Char × α), sid ∉ l.map Prod.fst → lookupA sid l = none
  | [], _ => rfl
  | (k, w) :: rest, h => by
    simp only [List.map_cons, List.mem_cons, not_or] at h
    have hk : k ≠ sid := fun he => h.1 he.symm
    simp [lookupA, hk, lookupA_eq_none sid rest h.2]

theorem lookupA_removeA {α : Type} (sid : List Char) :
    ∀ l : List (List Char × α), (l.map Prod.fst).Nodup →
      lookupA sid (removeA sid l) = none
  | [], _ => rfl
  | (k, w) :: rest, h => by
    simp only [List.map_cons, List.nodup_cons] at h
    by_cases hk : k = sid
    · subst hk
      simp only [removeA, if_pos rfl]
      exact lookupA_eq_none k rest h.1
    · simp [removeA, hk, lookupA, lookupA_removeA sid rest h.2]

/-! ## Session registry lemmas -/

theorem createSessionId_spec :
    ∀ (fuel : Nat) (choices : List Char) (keys : List (List Char)) (sid : List Char),
      (∀ c ∈ choices, c ∈ ID_CHARSET) →
      8 * fuel ≤ choices.length →
      createSessionId fuel choices keys = some sid →
      sid.length = 8 ∧ (∀ c ∈ sid, c ∈ ID_CHARSET) ∧ sid ∉ keys := by
  intro fuel
  induction fuel with
  | zero =>
    intro choices keys sid _ _ h
    simp [createSessionId] at h
  | succ f ih =>
    intro choices keys sid hc hl h
    simp only [createSessionId] at h
    by_cases hmem : choices.take 8 ∈ keys
    · rw [if_pos hmem] at h
      refine ih (choices.drop 8) keys sid ?_ ?_ h
      · exact fun c hc2 => hc c (List.drop_subset 8 choices hc2)
      · rw [List.length_drop]; omega
    · rw [if_neg hmem] at h
      have hsid : choices.take 8 = sid := by simpa using h
      subst hsid
      refine ⟨?_, ?_, hmem⟩
      · rw [List.length_take]; omega
      · exact fun c hc2 => hc c (List.take_subset 8 choices hc2)

/-- C2: session id uniqueness.  A successful `create_session` returns an id
that is eight characters long, drawn from the letters-and-digits alphabet,
absent from the registry at creation time, and inserting it keeps the
registry's keys free of duplicates. -/
theorem c2_session_id_unique (fuel : Nat) (choices : List Char)
    (reg reg1 : List (List Char × ClipsSessionState)) (sid : List Char)
    (hc : ∀ c ∈ choices, c ∈ ID_CHARSET)
    (hl : 8 * fuel ≤ choices.length)
    (hnd : (reg.map Prod.fst).Nodup)
    (hres : createSession fuel choices reg = some (sid, reg1)) :
    sid.length = 8 ∧ (∀ c ∈ sid, c ∈ ID_CHARSET)
    ∧ sid ∉ reg.map Prod.fst ∧ (reg1.map Prod.fst).Nodup := by
  unfold createSession at hres
  cases hid : createSessionId fuel choices (reg.map Prod.fst) with
  | none => rw [hid] at hres; simp at hres
  | some sid0 =>
    rw [hid] at hres
    simp only [Option.some.injEq, Prod.mk.injEq] at hres
    obtain ⟨hs0, hreg⟩ := hres
    subst hs0
    obtain ⟨hlen, hchar, hnotin⟩ :=
      createSessionId_spec fuel choices (reg.map Prod.fst) sid0 hc hl hid
    refine ⟨hlen, hchar, hnotin, ?_⟩
    rw [← hreg, updateA_keys_fresh sid0 _ reg hnotin]
    simp [List.nodup_append, hnd, hnotin]

/-- Witness for C2: one candidate id, empty registry. -/
theorem c2_session_id_unique_witness :
    ("abcdefgh".toList).length = 8
    ∧ (∀ c ∈ "abcdefgh".toList, c ∈ ID_CHARSET)
    ∧ "abcdefgh".toList ∉ ([] : List (List Char × ClipsSessionState)).map Prod.fst
    ∧ (((updateA "abcdefgh".toList
          ({ alive := true, proxySocket := none } : ClipsSessionState) []).map
          Prod.fst)).Nodup :=
  c2_session_id_unique 1 "abcdefgh".toList []
    (updateA "abcdefgh".toList
      ({ alive := true, proxySocket := none } : ClipsSessionState) [])
    "abcdefgh".toList (by decide) (by decide) (by simp) rfl

/-- C3: tunneled session response handling.  Empty data closes the session;
with no connect outcome recorded, data parsing as integer 0 replies SUCCEEDED
and leaves the session alive, and a nonzero value replies NETWORK_UNREACHABLE
and closes; once the outcome is recorded, data is forwarded verbatim to the
client socket. -/
theorem c3_tunneled_response_handling (st : ClipsSessionState) (data : List Nat) :
    (data = [] → clipsGetResponse st data = .ok ({ st with alive := false }, []))
    ∧ (∀ k, st.proxySocket = some k → data ≠ [] →
        clipsGetResponse st data = .ok (st, [Effect.sendAll data]))
    ∧ (st.proxySocket = none → data ≠ [] → ∀ r, asciiToInt data = some r →
        (r = 0 → clipsGetResponse st data
          = .ok ({ st with proxySocket := some 0 }, [Effect.sendResponse SUCCEEDED]))
        ∧ (r ≠ 0 → clipsGetResponse st data
          = .ok ({ st with proxySocket := some r, alive := false },
              [Effect.sendResponse NETWORK_UNREACHABLE]))) := by
  refine ⟨?_, ?_, ?_⟩
  · intro h
    simp [clipsGetResponse, h]
  · intro k hk hne
    simp [clipsGetResponse, hne, hk]
  · intro hnone hne r hr
    constructor
    · intro h0
      subst h0
      simp [clipsGetResponse, hne, hnone, hr]
    · intro hnz
      simp [clipsGetResponse, hne, hnone, hr, hnz]

/-- Witness for C3: connect results 0 and 1, then forwarding and closing. -/
theorem c3_tunneled_response_handling_witness :
    clipsGetResponse { alive := true, proxySocket := none } [48]
      = .ok ({ alive := true, proxySocket := some 0 }, [Effect.sendResponse SUCCEEDED])
    ∧ clipsGetResponse { alive := true, proxySocket := none } [49]
      = .ok ({ alive := false, proxySocket := some 1 },
          [Effect.sendResponse NETWORK_UNREACHABLE])
    ∧ clipsGetResponse { alive := true, proxySocket := some 0 } [65]
      = .ok ({ alive := true, proxySocket := some 0 }, [Effect.sendAll [65]])
    ∧ clipsGetResponse { alive := true, proxySocket := some 0 } []
      = .ok ({ alive := false, proxySocket := some 0 }, []) :=
  ⟨((c3_tunneled_response_handling { alive := true, proxySocket := none } [48]).2.2
      rfl (by decide) 0 (by decide)).1 rfl,
   ((c3_tunneled_response_handling { alive := true, proxySocket := none } [49]).2.2
      rfl (by decide) 1 (by decide)).2 (by decide),
   (c3_tunneled_response_handling { alive := true, proxySocket := some 0 } [65]).2.1
      0 rfl (by decide),
   (c3_tunneled_response_handling { alive := true, proxySocket := some 0 } []).1 rfl⟩

/-- C7: direct session connect-result mapping.  Result 0 replies SUCCEEDED
and enters the relay loop; 60 (the timeout-class errno tested by the source)
replies TTL_EXPIRED; 61 replies NETWORK_UNREACHABLE; every other nonzero
result falls back to NETWORK_UNREACHABLE and no relay loop runs. -/
theorem c7_direct_connect_result_mapping (result : Int) :
    (result = 0 → directConnectReply result = SUCCEEDED
      ∧ directConnectRelays result = true)
    ∧ (result = 60 → directConnectReply result = TTL_EXPIRED
      ∧ directConnectRelays result = false)
    ∧ (result = 61 → directConnectReply result = NETWORK_UNREACHABLE
      ∧ directConnectRelays result = false)
    ∧ (result ≠ 0 → result ≠ 60 → directConnectReply result = NETWORK_UNREACHABLE
      ∧ directConnectRelays result = false) := by
  refine ⟨?_, ?_, ?_, ?_⟩
  · intro h; subst h; exact ⟨rfl, rfl⟩
  · intro h; subst h; exact ⟨rfl, rfl⟩
  · intro h; subst h; exact ⟨rfl, rfl⟩
  · intro h0 h60
    unfold directConnectReply directConnectRelays
    rw [if_neg h0, if_neg h60, if_neg h0]
    by_cases h61 : result = 61 <;> simp [h61]

/-- Witness for C7 at results 0, 60, 61 and 5. -/
theorem c7_direct_connect_result_mapping_witness :
    (directConnectReply 0 = SUCCEEDED ∧ directConnectRelays 0 = true)
    ∧ (directConnectReply 60 = TTL_EXPIRED ∧ directConnectRelays 60 = false)
    ∧ (directConnectReply 61 = NETWORK_UNREACHABLE ∧ directConnectRelays 61 = false)
    ∧ (directConnectReply 5 = NETWORK_UNREACHABLE ∧ directConnectRelays 5 = false) :=
  ⟨(c7_direct_connect_result_mapping 0).1 rfl,
   (c7_direct_connect_result_mapping 60).2.1 rfl,
   (c7_direct_connect_result_mapping 61).2.2.1 rfl,
   (c7_direct_connect_result_mapping 5).2.2.2 (by decide) (by decide)⟩

/-- C9: close signal on client EOF.  An empty client read enqueues an
empty-payload DATA frame for the session and clears the alive flag; on the
remote peer, dequeuing the empty item clears `is_alive` and the relay loop
stops consuming further events. -/
theorem c9_client_eof_close_signal (sid : List Char) (alive : Bool)
    (ss : List (List Char × ProxyEntry)) (evs : List WEvent) :
    clipsConnectStep sid alive (ConnEvent.recvData [])
      = (false, [Effect.putFrame (encodeDataFrame sid [])])
    ∧ encodeDataFrame sid [] = MARKER ++ sid ++ ['$', '\n']
    ∧ workerStep sid ss (WEvent.deqItem []) = (ss, false, [Effect.logError])
    ∧ workerRun sid ss (WEvent.deqItem [] :: evs) = (ss, [Effect.logError]) := by
  refine ⟨rfl, ?_, rfl, rfl⟩
  simp [encodeDataFrame, b64encode]

/-- C10: unsupported address type fallthrough.  An address type other than
IPv4 or domain name sends ADDRESS_TYPE_NOT_SUPPORTED but handling falls
through into the command phase with a (None, None) address; with CONNECT the
session is still created and connected on the null address. -/
theorem c10_unsupported_address_type (atyp command : Nat)
    (ipv4Host domainHost : List Char) (port : Nat)
    (h1 : atyp ≠ 1) (h3 : atyp ≠ 3) :
    handleRequest command atyp ipv4Host domainHost port
      = Effect.sendResponse ADDRESS_TYPE_NOT_SUPPORTED
          :: commandPhase command (none, none)
    ∧ (command = 1 → handleRequest command atyp ipv4Host domainHost port
        = [Effect.sendResponse ADDRESS_TYPE_NOT_SUPPORTED, Effect.createSession,
           Effect.sessionConnect none none, Effect.sessionClose]) := by
  constructor
  · simp [handleRequest, addressPhase, h1, h3]
  · intro hcmd
    subst hcmd
    simp [handleRequest, addressPhase, commandPhase, h1, h3]

/-- Witness for C10: an IPv6 request (address type 4) with CONNECT. -/
theorem c10_unsupported_address_type_witness :
    handleRequest 1 4 [] [] 80
      = Effect.sendResponse ADDRESS_TYPE_NOT_SUPPORTED :: commandPhase 1 (none, none)
    ∧ (1 = 1 → handleRequest 1 4 [] [] 80
        = [Effect.sendResponse ADDRESS_TYPE_NOT_SUPPORTED, Effect.createSession,
           Effect.sessionConnect none none, Effect.sessionClose]) :=
  ⟨(c10_unsupported_address_type 4 1 [] [] 80 (by decide) (by decide)).1,
   fun _ => (c10_unsupported_address_type 4 1 [] [] 80 (by decide) (by decide)).2 rfl⟩

/-! ## Closed sessions and the in-stream worker (C4) -/

theorem getResponse_alive_mono (st : ClipsSessionState) (data : List Nat)
    (st1 : ClipsSessionState) (effs : List Effect)
    (h : clipsGetResponse st data = .ok (st1, effs)) (hst : st.alive = false) :
    st1.alive = false := by
  unfold clipsGetResponse at h
  split at h
  · simp only [Except.ok.injEq, Prod.mk.injEq] at h
    rw [← h.1]
  · split at h
    · next k hk =>
      simp only [Except.ok.injEq, Prod.mk.injEq] at h
      rw [← h.1]
      exact hst
    · split at h
      · exact absurd h (by simp)
      · next r hr =>
        split at h
        · simp only [Except.ok.injEq, Prod.mk.injEq] at h
          rw [← h.1]
          exact hst
        · simp only [Except.ok.injEq, Prod.mk.injEq] at h
          rw [← h.1]

/-- C4 counterexample: a nonempty DATA frame addressed to a session that is
already closed (alive = false) and has a recorded connect outcome is not a
no-op — the in-stream worker still writes its payload to the client
connection. -/
theorem c4_counterexample :
    (stdinStep [("ab12cd34".toList,
        { alive := false, proxySocket := some 0 })]
        (encodeDataFrame "ab12cd34".toList [65])).2 = [Effect.sendAll [65]]
    ∧ [Effect.sendAll [65]] ≠ ([] : List Effect) := by
  exact ⟨by decide, by decide⟩

/-- C4 amended: a frame addressed to a closed session never resurrects it
(the alive flag stays false through any `get_response` call and through any
in-stream worker step), and an empty-payload frame is a no-op on a closed
session; but the worker does not check liveness, so a nonempty DATA frame
for a closed session with a recorded connect outcome is still forwarded to
the client connection. -/
theorem c4_close_not_resurrected (reg : List (List Char × ClipsSessionState))
    (line sid : List Char) (st : ClipsSessionState) (data : List Nat)
    (hst : st.alive = false) :
    clipsGetResponse st [] = .ok (st, [])
    ∧ (∀ st1 effs, clipsGetResponse st data = .ok (st1, effs) → st1.alive = false)
    ∧ (∀ k, st.proxySocket = some k → data ≠ [] →
        clipsGetResponse st data = .ok (st, [Effect.sendAll data]))
    ∧ (∀ st0 st1, lookupA sid reg = some st0 → st0.alive = false →
        lookupA sid (stdinStep reg line).1 = some st1 → st1.alive = false) := by
  refine ⟨?_, ?_, ?_, ?_⟩
  · obtain ⟨a, p⟩ := st
    simp only [ClipsSessionState.alive] at hst
    subst hst
    simp [clipsGetResponse]
  · intro st1 effs h
    exact getResponse_alive_mono st data st1 effs h hst
  · intro k hk hne
    simp [clipsGetResponse, hne, hk]
  · intro st0 st1 h0 halive h1
    cases hpf : serverParseFrame line with
    | none =>
      simp only [stdinStep, hpf] at h1
      rw [h0] at h1
      injection h1 with h1
      rw [← h1]
      exact halive
    | some pr =>
      obtain ⟨sid1, dataOpt⟩ := pr
      cases dataOpt with
      | none =>
        simp only [stdinStep, hpf] at h1
        rw [h0] at h1
        injection h1 with h1
        rw [← h1]
        exact halive
      | some data1 =>
        cases hlk : lookupA sid1 reg with
        | none =>
          simp only [stdinStep, hpf, hlk] at h1
          rw [h0] at h1
          injection h1 with h1
          rw [← h1]
          exact halive
        | some stX =>
          cases hgr : clipsGetResponse stX data1 with
          | error e =>
            simp only [stdinStep, hpf, hlk, hgr] at h1
            rw [h0] at h1
            injection h1 with h1
            rw [← h1]
            exact halive
          | ok pr2 =>
            obtain ⟨stY, effs⟩ := pr2
            simp only [stdinStep, hpf, hlk, hgr] at h1
            by_cases hss : sid1 = sid
            · subst hss
              rw [lookupA_updateA_self sid1 stY reg] at h1
              injection h1 with h1
              rw [h0] at hlk
              injection hlk with hlk
              rw [← h1]
              exact getResponse_alive_mono stX data1 stY effs hgr (hlk ▸ halive)
            · rw [lookupA_updateA_ne sid sid1 stY hss reg, h0] at h1
              injection h1 with h1
              rw [← h1]
              exact halive

/-- Witness for C4 amended: a closed session with recorded outcome, a
nonempty payload, and a frame addressed to it. -/
theorem c4_close_not_resurrected_witness :
    clipsGetResponse { alive := false, proxySocket := some 0 } []
      = .ok ({ alive := false, proxySocket := some 0 }, [])
    ∧ clipsGetResponse { alive := false, proxySocket := some 0 } [65]
      = .ok ({ alive := false, proxySocket := some 0 }, [Effect.sendAll [65]]) :=
  ⟨(c4_close_not_resurrected [] [] [] { alive := false, proxySocket := some 0 }
      [65] rfl).1,
   (c4_close_not_resurrected [] [] [] { alive := false, proxySocket := some 0 }
      [65] rfl).2.2.1 0 rfl (by decide)⟩

/-! ## Remote entry removal (C5) -/

/-- C5 counterexample: the relay worker terminating on an `IOError` leaves
the session's entry in the remote mapping — the entry is not removed. -/
theorem c5_counterexample :
    (workerStep "ab12cd34".toList
        [("ab12cd34".toList, ("example.com".toList, (80 : Int), []))]
        WEvent.recvErr).2.1 = false
    ∧ lookupA "ab12cd34".toList
        (workerStep "ab12cd34".toList
          [("ab12cd34".toList, ("example.com".toList, (80 : Int), []))]
          WEvent.recvErr).1
        = some ("example.com".toList, (80 : Int), []) := by
  exact ⟨rfl, rfl⟩

/-- C5 amended: only the empty-socket-read termination path deletes the
remote-side entry; termination via `IOError`, via an empty inbound-queue
item, or via a failed connect leaves the entry in the mapping. -/
theorem c5_entry_removed_only_on_empty_read (sid : List Char)
    (ss : List (List Char × ProxyEntry)) :
    (workerStep sid ss (WEvent.recvData []))
        = (removeA sid ss, false, [Effect.sendFrame sid [], Effect.logError])
    ∧ ((ss.map Prod.fst).Nodup → lookupA sid (removeA sid ss) = none)
    ∧ workerStep sid ss WEvent.recvErr = (ss, false, [Effect.logError])
    ∧ workerStep sid ss (WEvent.deqItem []) = (ss, false, [Effect.logError])
    ∧ (∀ r : Int, r ≠ 0 → workerRunFull sid ss r []
        = (ss, [Effect.sendFrame sid ((intToChars r).map Char.toNat)])) := by
  refine ⟨rfl, fun h => lookupA_removeA sid ss h, rfl, rfl, ?_⟩
  intro r hr
  simp [workerRunFull, hr]

/-- Witness for C5 amended at a concrete entry and a failed connect. -/
theorem c5_entry_removed_only_on_empty_read_witness :
    lookupA "ab12cd34".toList
        (removeA "ab12cd34".toList
          [("ab12cd34".toList,
            (("example.com".toList, (80 : Int), []) : ProxyEntry))]) = none
    ∧ workerRunFull "ab12cd34".toList
        [("ab12cd34".toList,
          (("example.com".toList, (80 : Int), []) : ProxyEntry))] 61 []
        = ([("ab12cd34".toList,
             (("example.com".toList, (80 : Int), []) : ProxyEntry))],
           [Effect.sendFrame "ab12cd34".toList ((intToChars 61).map Char.toNat)]) :=
  ⟨(c5_entry_removed_only_on_empty_read "ab12cd34".toList
      [("ab12cd34".toList,
        (("example.com".toList, (80 : Int), []) : ProxyEntry))]).2.1 (by decide),
   (c5_entry_removed_only_on_empty_read "ab12cd34".toList
      [("ab12cd34".toList,
        (("example.com".toList, (80 : Int), []) : ProxyEntry))]).2.2.2.2 61
      (by decide)⟩

/-! ## Malformed frames (C6) and non-frame lines (C8) -/

/-- C6: malformed frames are non-fatal.  On either side, a frame whose
payload is not valid base64 or whose session id is unknown produces one
logged traceback, leaves the session map untouched, and the worker loop goes
on to process the remaining lines. -/
theorem c6_malformed_frames_nonfatal (line : List Char) :
    (∀ reg rest sid, serverParseFrame line = some (sid, none) →
      stdinWorker reg (line :: rest)
        = ((stdinWorker reg rest).1, Effect.logError :: (stdinWorker reg rest).2))
    ∧ (∀ reg rest sid data, serverParseFrame line = some (sid, some data) →
        lookupA sid reg = none →
        stdinWorker reg (line :: rest)
          = ((stdinWorker reg rest).1, Effect.logError :: (stdinWorker reg rest).2))
    ∧ (∀ ss rest, decodeLine line = FrameResult.malformed →
        proxyReadLoop ss (line :: rest)
          = ((proxyReadLoop ss rest).1,
             Effect.logError :: (proxyReadLoop ss rest).2.1,
             (proxyReadLoop ss rest).2.2))
    ∧ (∀ ss rest sid d, decodeLine line = FrameResult.dataF sid d →
        lookupA sid ss = none →
        proxyReadLoop ss (line :: rest)
          = ((proxyReadLoop ss rest).1,
             Effect.logError :: (proxyReadLoop ss rest).2.1,
             (proxyReadLoop ss rest).2.2)) := by
  refine ⟨?_, ?_, ?_, ?_⟩
  · intro reg rest sid hpf
    simp [stdinWorker, stdinStep, hpf]
  · intro reg rest sid data hpf hlk
    simp [stdinWorker, stdinStep, hpf, hlk]
  · intro ss rest hdec
    simp [proxyReadLoop, proxyReadStep, hdec]
  · intro ss rest sid d hdec hlk
    simp [proxyReadLoop, proxyReadStep, hdec, hlk]

/-- Witness for C6: a bad-padding DATA frame and a DATA frame for an unknown
session id, against empty registries. -/
theorem c6_malformed_frames_nonfatal_witness :
    stdinWorker [] ("$BASE64$xx$QQ=\n".toList :: [])
      = ((stdinWorker [] []).1, Effect.logError :: (stdinWorker [] []).2)
    ∧ stdinWorker [] ("$BASE64$yy$QQ==\n".toList :: [])
      = ((stdinWorker [] []).1, Effect.logError :: (stdinWorker [] []).2)
    ∧ proxyReadLoop [] ("$BASE64$xx$QQ=\n".toList :: [])
      = ((proxyReadLoop [] []).1, Effect.logError :: (proxyReadLoop [] []).2.1,
         (proxyReadLoop [] []).2.2)
    ∧ proxyReadLoop [] ("$BASE64$yy$QQ==\n".toList :: [])
      = ((proxyReadLoop [] []).1, Effect.logError :: (proxyReadLoop [] []).2.1,
         (proxyReadLoop [] []).2.2) :=
  ⟨(c6_malformed_frames_nonfatal "$BASE64$xx$QQ=\n".toList).1 [] [] "xx".toList
     (by decide),
   (c6_malformed_frames_nonfatal "$BASE64$yy$QQ==\n".toList).2.1 [] [] "yy".toList
     [65] (by decide) (by decide),
   (c6_malformed_frames_nonfatal "$BASE64$xx$QQ=\n".toList).2.2.1 [] []
     (by decide),
   (c6_malformed_frames_nonfatal "$BASE64$yy$QQ==\n".toList).2.2.2 [] []
     "yy".toList [65] (by decide) (by decide)⟩

/-- C8: non-frame pass-through.  A nonempty line in which the marker does
not occur is not treated as a frame: the remote reader returns it unchanged
to its caller, and the local in-stream worker leaves the registry untouched
and performs no session-addressed effect. -/
theorem c8_non_frame_passthrough (line : List Char) (hne : line ≠ [])
    (h : partitionAux MARKER line = none) :
    decodeLine line = FrameResult.passthrough line
    ∧ (∀ ss, proxyReadStep ss line = (ss, [], some line))
    ∧ (∀ reg, stdinStep reg line = (reg, [])) := by
  have hdec : decodeLine line = FrameResult.passthrough line := by
    unfold decodeLine pyPartition
    rw [h]
    simp [hne]
  refine ⟨hdec, fun ss => by simp [proxyReadStep, hdec], fun reg => ?_⟩
  have hspf : serverParseFrame line = none := by
    unfold serverParseFrame pyPartition
    by_cases hs : stripChars line = []
    · simp [hs]
    · simp [hs, no_marker_after_strip line h]
  simp [stdinStep, hspf]

/-- Witness for C8 at a concrete non-frame line. -/
theorem c8_non_frame_passthrough_witness :
    decodeLine "hello world\n".toList
      = FrameResult.passthrough "hello world\n".toList
    ∧ proxyReadStep [] "hello world\n".toList
      = ([], [], some "hello world\n".toList)
    ∧ stdinStep [] "hello world\n".toList = ([], []) :=
  ⟨(c8_non_frame_passthrough "hello world\n".toList (by decide) (by decide)).1,
   (c8_non_frame_passthrough "hello world\n".toList (by decide) (by decide)).2.1 [],
   (c8_non_frame_passthrough "hello world\n".toList (by decide) (by decide)).2.2 []⟩

end Clips
